import Mathlib

/-!
Verification development for the OSS audio device sharing and mixing engine
(`AsyncAudioDevice.cpp`).  The C++ class `Async::AudioDevice` is shallowly
embedded: the device state, the backend (ioctl) outcomes and the client
(`AudioIO`) contract become explicit data, and the member functions become
pure Lean functions over them.  Machine integers are modelled by `Nat`/`Int`
(none of the involved quantities overflow in the source), `float` samples by
`ℚ`, and the int16 cast by truncation toward zero.
-/

/-- Open mode of a device (`AudioDevice::Mode` / `AudioIO::Mode`):
`MODE_NONE`, `MODE_RD`, `MODE_WR`, `MODE_RDWR`. -/
inductive Mode
  | none
  | rd
  | wr
  | rdwr
deriving DecidableEq, Repr

/-- Bit index of `DSP_CAP_DUPLEX` (value `0x00000100`). -/
def DSP_CAP_DUPLEX : Nat := 8

/-- Bit index of `DSP_CAP_TRIGGER` (value `0x00001000`). -/
def DSP_CAP_TRIGGER : Nat := 12

/-- `AFMT_S16_NE` (native-endian 16 bit, `0x00000010` on little endian). -/
def AFMT_S16_NE : Int := 16

/-- The mutable state of one `AudioDevice` object, as far as the open/close
logic observes it: `current_mode`, whether `fd != -1`, the `use_trigger`
flag set in the constructor, the stored `device_caps`, the modes of the
registered `AudioIO` clients (`aios`, via `(*it)->mode()`), the two fd
watches and whether `read_buf` has been allocated. -/
structure DevState where
  currentMode : Mode
  fdOpen : Bool
  useTrigger : Bool
  deviceCaps : Nat
  aioModes : List Mode
  readWatch : Bool
  writeWatch : Bool
  bufAllocated : Bool
deriving DecidableEq, Repr

/-- Outcome of every backend (ioctl / `::open`) call that `AudioDevice::open`
can issue, together with the values the backend reports back.  The backend is
an external collaborator, so one `Backend` value fixes one environment
behaviour for a single `open` call. -/
structure Backend where
  openOk : Bool
  getcapsOk : Bool
  caps : Nat
  trigDisableOk : Bool
  setFragmentOk : Bool
  setFmtOk : Bool
  fmtRet : Int
  setChannelsOk : Bool
  channelsRet : Int
  setSpeedOk : Bool
  speedRet : Int
  trigEnableOk : Bool
  getBlkSizeOk : Bool
deriving DecidableEq, Repr

/-- Commands issued to the backend, in order, by one `open` call. -/
inductive Cmd
  | openFd (m : Mode)
  | setDuplex
  | getCaps
  | setTrigger (mask : Int)
  | setFragment
  | setFmt
  | setChannels
  | setSpeed
  | getBlkSize
deriving DecidableEq, Repr

/-- Result of `AudioDevice::open`: final state, return value, emitted
backend command trace. -/
structure OpenResult where
  state : DevState
  ok : Bool
  cmds : List Cmd
deriving DecidableEq, Repr

/-- `AudioDevice::closeDevice`: reset `current_mode`, delete both watches,
close the fd. -/
def closeDevice (s : DevState) : DevState :=
  { s with currentMode := Mode.none, readWatch := false, writeWatch := false,
           fdOpen := false }

/-- The gate of `AudioDevice::close`: every registered client reports
`MODE_NONE`. -/
def allIdle (s : DevState) : Prop :=
  ∀ m ∈ s.aioModes, m = Mode.none

instance (s : DevState) : Decidable (allIdle s) :=
  List.decidableBAll _ s.aioModes

/-- `AudioDevice::close`: iterate all registered clients; if any client's
mode is not `MODE_NONE`, return without action, else `closeDevice`. -/
def closeGated (s : DevState) : DevState :=
  if allIdle s then closeDevice s else s

/-- `AudioDevice::isFullDuplexCapable`: `device_caps & DSP_CAP_DUPLEX`. -/
def isFullDuplexCapable (s : DevState) : Bool :=
  s.deviceCaps.testBit DSP_CAP_DUPLEX

/-- The `use_trigger` initializer in the `AudioDevice` constructor:
`use_trigger = (use_trigger_str != 0) && (atoi(use_trigger_str) == 0)`,
with `envSet` standing for `getenv("ASYNC_AUDIO_NOTRIGGER") != 0` and
`v` for the `atoi` value of the variable. -/
def useTriggerOfEnv (envSet : Bool) (v : Int) : Bool :=
  envSet && decide (v = 0)

/-- The tail of `AudioDevice::open` after the sample-rate validation
(lines 310-356): `current_mode = mode`, watch creation with the trigger
mask accumulation, the optional trigger arm, `SNDCTL_DSP_GETBLKSIZE`, and
the one-time buffer allocation.  The two remaining failing steps call the
gated `close()` and return `false`. -/
def cfgFinish (s : DevState) (b : Backend) (m : Mode) (cs : List Cmd) :
    OpenResult :=
  let rwat := if m = Mode.rd ∨ m = Mode.rdwr then true else s.readWatch
  let wwat := if m = Mode.wr ∨ m = Mode.rdwr then true else s.writeWatch
  let s4 := { s with currentMode := m, readWatch := rwat, writeWatch := wwat }
  let mask : Int := (if m = Mode.rd ∨ m = Mode.rdwr then 1 else 0)
                    + (if m = Mode.wr ∨ m = Mode.rdwr then 2 else 0)
  let trig2 := s4.useTrigger && b.caps.testBit DSP_CAP_TRIGGER
  let cs6 := cs ++ (if trig2 then [Cmd.setTrigger mask] else [])
  if trig2 && !b.trigEnableOk then ⟨closeGated s4, false, cs6⟩ else
  let cs7 := cs6 ++ [Cmd.getBlkSize]
  if b.getBlkSizeOk = false then ⟨closeGated s4, false, cs7⟩ else
  ⟨{ s4 with bufAllocated := true }, true, cs7⟩

/-- The parameter negotiation of `AudioDevice::open` (lines 255-308):
`SETFRAGMENT`, `SETFMT` (+ exact format check), `CHANNELS` (+ exact count
check), `SPEED` (+ ±100 Hz check).  Every failing step calls the gated
`close()` and returns `false`. -/
def cfgParams (chCount rate : Int) (s : DevState) (b : Backend) (m : Mode)
    (cs : List Cmd) : OpenResult :=
  let cs2 := cs ++ [Cmd.setFragment]
  if b.setFragmentOk = false then ⟨closeGated s, false, cs2⟩ else
  let cs3 := cs2 ++ [Cmd.setFmt]
  if b.setFmtOk = false then ⟨closeGated s, false, cs3⟩ else
  if b.fmtRet ≠ AFMT_S16_NE then ⟨closeGated s, false, cs3⟩ else
  let cs4 := cs3 ++ [Cmd.setChannels]
  if b.setChannelsOk = false then ⟨closeGated s, false, cs4⟩ else
  if b.channelsRet ≠ chCount then ⟨closeGated s, false, cs4⟩ else
  let cs5 := cs4 ++ [Cmd.setSpeed]
  if b.setSpeedOk = false then ⟨closeGated s, false, cs5⟩ else
  if 100 < (b.speedRet - rate).natAbs then ⟨closeGated s, false, cs5⟩ else
  cfgFinish s b m cs5

/-- The configuration part of `AudioDevice::open`, entered after
`fd = ::open(...)` succeeded (lines 232-253): `SNDCTL_DSP_SETDUPLEX`
(result ignored), `GETCAPS`, the optional trigger disarm, then the
parameter negotiation `cfgParams` and the tail `cfgFinish`. -/
def openConfigure (chCount rate : Int) (s : DevState) (b : Backend)
    (m : Mode) : OpenResult :=
  let cs0 := [Cmd.openFd m] ++ (if m = Mode.rdwr then [Cmd.setDuplex] else [])
             ++ [Cmd.getCaps]
  if b.getcapsOk = false then ⟨closeGated s, false, cs0⟩ else
  let s1 := { s with deviceCaps := b.caps }
  let trig1 := s1.useTrigger && b.caps.testBit DSP_CAP_TRIGGER
  let cs1 := cs0 ++ (if trig1 then [Cmd.setTrigger (-4)] else [])
  if trig1 && !b.trigDisableOk then ⟨closeGated s1, false, cs1⟩ else
  cfgParams chCount rate s1 b m cs1

/-- `AudioDevice::open(Mode mode)`.  Early returns: same mode; `MODE_NONE`
degrades to `close()` (and falls through); already `MODE_RDWR`; escalation
to `MODE_RDWR` when open in the other single direction; `closeDevice` of an
existing fd; then the `::open` call and the configuration sequence. -/
def openDev (chCount rate : Int) (s0 : DevState) (b : Backend)
    (m : Mode) : OpenResult :=
  if m = s0.currentMode then ⟨s0, true, []⟩ else
  let s1 := if m = Mode.none then closeGated s0 else s0
  if s1.currentMode = Mode.rdwr then ⟨s1, true, []⟩ else
  let m2 := if s1.currentMode ≠ Mode.none ∧ m ≠ s1.currentMode
            then Mode.rdwr else m
  let s2 := if s1.fdOpen then closeDevice s1 else s1
  match m2 with
  | Mode.none => ⟨s2, true, []⟩
  | mm =>
    if b.openOk = false then ⟨s2, false, [Cmd.openFd mm]⟩ else
    openConfigure chCount rate { s2 with fdOpen := true } b mm

/-- Modelled from the spec: the caller-side open in `AsyncAudioIO.cpp` is a
part of this repository that is not under `src/`; per §4.2 and §8 of the
design, registering a second client in the opposite single direction
escalates the target to `DUPLEX` only "if the backend reports duplex
capability; otherwise the second open must fail cleanly".  The gate
consults the device's stored capabilities via `isFullDuplexCapable`. -/
def clientOpen (chCount rate : Int) (s : DevState) (b : Backend)
    (m : Mode) : DevState × Bool :=
  let escalates := s.currentMode ≠ Mode.none ∧ m ≠ Mode.none ∧
                   m ≠ s.currentMode ∧ s.currentMode ≠ Mode.rdwr
  if escalates ∧ ¬ (isFullDuplexCapable s = true) then (s, false)
  else
    let r := openDev chCount rate s b m
    (r.state, r.ok)

/-! ### The device registry (`AudioDevice::devices`, use counting) -/

/-- One registry entry: `use_count` and the registered clients (`aios`),
identified by a client id. -/
structure DevEntry where
  useCount : Nat
  clients : List Nat
deriving DecidableEq, Repr

/-- `AudioDevice::devices`: map from device name to device object,
modelled as an association list. -/
abbrev Registry := List (String × DevEntry)

/-- Update every entry stored under `dev` (keys are unique in any registry
built by the operations below). -/
def updateKey (reg : Registry) (dev : String) (f : DevEntry → DevEntry) :
    Registry :=
  reg.map (fun p => if p.1 = dev then (p.1, f p.2) else p)

/-- `AudioDevice::registerAudioIO`: create the device on a registry miss
(the capability probe `open(MODE_RDWR)`/`close()` does not touch the
counts), then `++use_count` and append the client to `aios`. -/
def registerAio (reg : Registry) (dev : String) (c : Nat) : Registry :=
  if ∃ p ∈ reg, p.1 = dev then
    updateKey reg dev (fun e => ⟨e.useCount + 1, e.clients ++ [c]⟩)
  else
    reg ++ [(dev, ⟨1, [c]⟩)]

instance (reg : Registry) (dev : String) : Decidable (∃ p ∈ reg, p.1 = dev) :=
  List.decidableBEx _ reg

/-- `AudioDevice::unregisterAudioIO`: look up the client's device through its
back pointer, erase the client from `aios`, `--use_count`, and when the
count reaches zero erase and delete the device. -/
def unregisterAio (reg : Registry) (c : Nat) : Registry :=
  reg.filterMap (fun p =>
    if c ∈ p.2.clients then
      if p.2.useCount - 1 = 0 then Option.none
      else Option.some (p.1, ⟨p.2.useCount - 1, p.2.clients.erase c⟩)
    else Option.some p)

/-- A register/unregister call. -/
inductive RegOp
  | register (dev : String) (c : Nat)
  | unregister (c : Nat)
deriving DecidableEq, Repr

/-- Apply one call to the registry. -/
def applyOp (reg : Registry) : RegOp → Registry
  | RegOp.register dev c => registerAio reg dev c
  | RegOp.unregister c => unregisterAio reg c

/-- Validity of one call: a register call uses a fresh client id (each
`AudioIO` object registers itself at most once) and an unregister call names
a currently registered client. -/
def validOp (reg : Registry) : RegOp → Bool
  | RegOp.register _ c => reg.all (fun p => decide (c ∉ p.2.clients))
  | RegOp.unregister c => reg.any (fun p => decide (c ∈ p.2.clients))

/-- Validity of a call sequence starting from a given registry. -/
def validSeq : Registry → List RegOp → Bool
  | _, [] => true
  | reg, op :: rest => validOp reg op && validSeq (applyOp reg op) rest

/-- Run a call sequence from the empty registry. -/
def runOps (ops : List RegOp) : Registry :=
  ops.foldl applyOp []

/-! ### The write/mixing handler (`AudioDevice::writeSpaceAvailable`) -/

/-- One registered `AudioIO` object as the write loop observes it:
`isIdle()`, `doFlush()`, the queued samples (so `samplesAvailable()` is the
queue length and `readSamples(tmp, n)` yields `take n`/`drop n`), and
`channel()`. -/
structure Aio where
  idle : Bool
  flush : Bool
  queue : List ℚ
  channel : Nat

/-- `frames_to_write` as first computed in the loop body:
`min(sizeof(buf)/sizeof(*buf), fragments * fragsize)` with the scratch
buffer `int16_t buf[32768]`. -/
def ftwInitial (fragments fragsize : Nat) : Nat :=
  min 32768 (fragments * fragsize)

/-- The scan loop's cap: every non-idle, non-flushing client lowers
`frames_to_write` to its `samplesAvailable()` if smaller. -/
def scanCap : Nat → List Aio → Nat
  | ftw, [] => ftw
  | ftw, a :: t =>
    scanCap
      (if a.idle = false ∧ a.flush = false ∧ a.queue.length < ftw
       then a.queue.length else ftw) t

/-- `do_flush` after the scan loop: no non-idle client reports
`doFlush() == false`. -/
def doFlushScan (aios : List Aio) : Prop :=
  ∀ a ∈ aios, a.idle = false → a.flush = true

instance (aios : List Aio) : Decidable (doFlushScan aios) :=
  List.decidableBAll _ aios

/-- The accumulator loop computing `max_samples_in_fifo`. -/
def maxAcc : Nat → List Aio → Nat
  | acc, [] => acc
  | acc, a :: t =>
    maxAcc (if a.idle = false ∧ acc < a.queue.length then a.queue.length else acc) t

/-- `max_samples_in_fifo`: largest `samplesAvailable()` over the non-idle
clients. -/
def maxSamplesInFifo (aios : List Aio) : Nat :=
  maxAcc 0 aios

/-- Lines 535-561: the scan, `do_flush &= (max_samples_in_fifo <=
frames_to_write)` and the cap by `max_samples_in_fifo`; yields the capped
`frames_to_write` and `do_flush`. -/
def ftwScan (ftw0 : Nat) (aios : List Aio) : Nat × Bool :=
  let ftw1 := scanCap ftw0 aios
  let mx := maxSamplesInFifo aios
  (if mx < ftw1 then mx else ftw1,
   decide (doFlushScan aios) && decide (mx ≤ ftw1))

/-- When not flushing, round `frames_to_write` down to a whole number of
fragments. -/
def ftwAligned (ftw : Nat) (fl : Bool) (fragsize : Nat) : Nat :=
  if fl then ftw else ftw / fragsize * fragsize

/-- The `frames_to_write` value reaching line 593 (zero test) and the
mixing loop. -/
def resolvedFtw (fragments fragsize : Nat) (aios : List Aio) : Nat :=
  ftwAligned (ftwScan (ftwInitial fragments fragsize) aios).1
    (ftwScan (ftwInitial fragments fragsize) aios).2 fragsize

/-- The flush round-up of lines 641-645. -/
def roundUpFrag (ftw fragsize : Nat) : Nat :=
  if 0 < ftw % fragsize then (ftw / fragsize + 1) * fragsize else ftw

/-- `static_cast<int16_t>` of an in-range value: C truncation toward zero. -/
def truncQ (x : ℚ) : ℤ :=
  if 0 ≤ x then ⌊x⌋ else ⌈x⌉

/-- Lines 620-632: scale a pulled sample by `32767.0`, add the prior
content of the mix-buffer slot, and saturate to `[-32767, 32767]`. -/
def clampAdd (t : ℚ) (prior : ℤ) : ℤ :=
  let s : ℚ := 32767 * t + (prior : ℚ)
  if 32767 < s then 32767
  else if s < -32767 then -32767
  else truncQ s

/-- The inner mixing loop for one client: sample `i` of the pulled block
lands in slot `i * channels + channel`. -/
def mixInto (channels chan : Nat) : Nat → List ℚ → (Nat → ℤ) → Nat → ℤ
  | _, [], buf => buf
  | i, t :: ts, buf =>
    let pos := i * channels + chan
    let v := clampAdd t (buf pos)
    mixInto channels chan (i + 1) ts (fun p => if p = pos then v else buf p)

/-- Lines 610-635: every non-idle client pulls up to `frames_to_write`
samples and mixes them into the zero-initialised scratch buffer. -/
def mixAios (channels ftw : Nat) : List Aio → (Nat → ℤ) → Nat → ℤ
  | [], buf => buf
  | a :: t, buf =>
    mixAios channels ftw t
      (if a.idle then buf
       else mixInto channels a.channel 0 (a.queue.take ftw) buf)

/-- The client state after the mixing pass (`readSamples` consumed
`frames_to_write` samples from every non-idle client's queue). -/
def drainAios (ftw : Nat) (aios : List Aio) : List Aio :=
  aios.map (fun a => if a.idle then a else { a with queue := a.queue.drop ftw })

/-- Outcome of one iteration of the do/while body. -/
inductive StepOut
  | noSpace
  | noData
  | wrote (frames : Nat) (buf : Nat → ℤ) (aios : List Aio) (cont : Bool)

/-- One iteration of the do/while body of `writeSpaceAvailable`, given the
`GETOSPACE` report of this iteration. -/
def wsaStep (channels fragsize fragments : Nat) (aios : List Aio) :
    StepOut :=
  if ftwInitial fragments fragsize = 0 then StepOut.noSpace else
  let fl := (ftwScan (ftwInitial fragments fragsize) aios).2
  let ftw3 := resolvedFtw fragments fragsize aios
  if ftw3 = 0 then StepOut.noData else
  let ftw4 := if fl then roundUpFrag ftw3 fragsize else ftw3
  StepOut.wrote ftw4 (mixAios channels ftw3 aios (fun _ => 0))
    (drainAios ftw3 aios) (decide (ftw4 = fragments * fragsize))

/-- Final state of the fd watch after the handler: re-armed (line 674),
disarmed (line 604), or untouched (error return). -/
inductive WatchOut
  | enabled
  | disabled
  | unchanged
deriving DecidableEq, Repr

/-- Result of one handler invocation: the device writes performed (frame
count and interleaved samples), the final client states, and the watch
state. -/
structure WsaResult where
  writes : List (Nat × List ℤ)
  aios : List Aio
  watch : WatchOut

/-- The first `n` slots of the mix buffer, as handed to `::write`. -/
def extractBuf (n : Nat) (buf : Nat → ℤ) : List ℤ :=
  (List.range n).map buf

/-- The do/while loop of `writeSpaceAvailable`.  Each iteration consumes one
`GETOSPACE` answer from the trace; an exhausted trace models the ioctl
failing (early `return`, watch untouched).  The loop repeats only when the
write exactly consumed all free fragments. -/
def wsaLoop (channels fragsize : Nat) :
    List Nat → List Aio → List (Nat × List ℤ) → WsaResult
  | [], aios, acc => ⟨acc.reverse, aios, WatchOut.unchanged⟩
  | fragments :: rest, aios, acc =>
    match wsaStep channels fragsize fragments aios with
    | StepOut.noSpace => ⟨acc.reverse, aios, WatchOut.enabled⟩
    | StepOut.noData => ⟨acc.reverse, aios, WatchOut.disabled⟩
    | StepOut.wrote w buf aios2 cont =>
      if cont
      then wsaLoop channels fragsize rest aios2
             ((w, extractBuf (w * channels) buf) :: acc)
      else ⟨((w, extractBuf (w * channels) buf) :: acc).reverse, aios2,
            WatchOut.enabled⟩

/-- `AudioDevice::writeSpaceAvailable`. -/
def writeSpaceAvailable (channels fragsize : Nat) (trace : List Nat)
    (aios : List Aio) : WsaResult :=
  wsaLoop channels fragsize trace aios []

/-- Total number of frames written to the device by one invocation. -/
def totalFrames (r : WsaResult) : Nat :=
  (r.writes.map Prod.fst).sum

/-- The value `frames_to_write` would take under §4.4 step 2 of the spec:
the scratch-buffer capacity expressed in frames, i.e. the sample capacity
divided by the channel count. -/
def ftwInitialSpec (channels fragments fragsize : Nat) : Nat :=
  min (32768 / channels) (fragments * fragsize)

/-- A backend environment in which every configuration step of `open`
succeeds and every negotiated parameter is accepted as requested. -/
def backendAllOk (chCount rate : Int) (b : Backend) : Prop :=
  b.openOk = true ∧ b.getcapsOk = true ∧ b.trigDisableOk = true ∧
  b.setFragmentOk = true ∧ b.setFmtOk = true ∧ b.fmtRet = AFMT_S16_NE ∧
  b.setChannelsOk = true ∧ b.channelsRet = chCount ∧
  b.setSpeedOk = true ∧ (b.speedRet - rate).natAbs ≤ 100 ∧
  b.trigEnableOk = true ∧ b.getBlkSizeOk = true

instance (chCount rate : Int) (b : Backend) :
    Decidable (backendAllOk chCount rate b) := by
  unfold backendAllOk; infer_instance

/-- The registry invariant: every stored device's `use_count` equals the
number of its registered clients and is positive. -/
def registryInv (reg : Registry) : Prop :=
  ∀ e ∈ reg, e.2.useCount = e.2.clients.length ∧ 0 < e.2.useCount

/-! ## Claims -/

/-- Claim C3 (code bug): the loop initialises `frames_to_write` as
`min(sizeof(buf)/sizeof(*buf), fragments * fragsize)`, i.e. the scratch
buffer capacity in SAMPLES (32768), not in frames (capacity divided by the
channel count) as the spec states.  With 2 channels and 128 free fragments
of 256 frames the code picks 32768 frames while the spec value is 16384,
and mixing 32768 frames on channel 1 touches slot 65535, past the 32768
sample capacity; the subsequent `::write` also reads 65536 samples from
the 32768 sample buffer. -/
theorem c3_ftw_capacity_in_samples_not_frames :
    ftwInitial 128 256 = 32768 ∧
    ftwInitialSpec 2 128 256 = 16384 ∧
    ftwInitial 128 256 ≠ ftwInitialSpec 2 128 256 ∧
    32768 ≤ (ftwInitial 128 256 - 1) * 2 + 1 ∧
    32768 < ftwInitial 128 256 * 2 := by
  decide

/-- Claim C5 (code bug): `open(MODE_NONE)` on a device open in `MODE_RD`
with a non-idle registered client does not stop after the gated close
attempt: the missing early return lets the call escalate the mode to
`MODE_RDWR`, force-close the fd via `closeDevice` (bypassing the gate) and
reopen the backend, ending with `current_mode = MODE_RDWR` — contradicting
the claim (and the code's own comment "Same as calling close"). -/
theorem c5_open_none_reopens_device :
    (openDev 1 8000
      ⟨Mode.rd, true, false, 0, [Mode.rd], true, false, true⟩
      ⟨true, true, 0, true, true, true, 16, true, 1, true, 8000, true, true⟩
      Mode.none).ok = true ∧
    (openDev 1 8000
      ⟨Mode.rd, true, false, 0, [Mode.rd], true, false, true⟩
      ⟨true, true, 0, true, true, true, 16, true, 1, true, 8000, true, true⟩
      Mode.none).state.currentMode = Mode.rdwr ∧
    Cmd.openFd Mode.rdwr ∈ (openDev 1 8000
      ⟨Mode.rd, true, false, 0, [Mode.rd], true, false, true⟩
      ⟨true, true, 0, true, true, true, 16, true, 1, true, 8000, true, true⟩
      Mode.none).cmds := by
  decide

/-- Claim C4 counterexample: `current_mode = mode` is executed before the
trigger-arming and fragment-size-query steps.  If `SNDCTL_DSP_GETBLKSIZE`
fails while a registered client is non-idle, the error-path `close()` is
gated off, so `open` returns `false` with `current_mode` left equal to the
newly requested mode. -/
theorem c4_counterexample_mode_left_on_late_failure :
    (openDev 1 8000
      ⟨Mode.none, false, false, 0, [Mode.wr], false, false, false⟩
      ⟨true, true, 0, true, true, true, 16, true, 1, true, 8000, true, false⟩
      Mode.wr).ok = false ∧
    (openDev 1 8000
      ⟨Mode.none, false, false, 0, [Mode.wr], false, false, false⟩
      ⟨true, true, 0, true, true, true, 16, true, 1, true, 8000, true, false⟩
      Mode.wr).state.currentMode = Mode.wr := by
  decide
/-- `closeGated` keeps the client list. -/
lemma aioModes_closeGated (s : DevState) :
    (closeGated s).aioModes = s.aioModes := by
  unfold closeGated closeDevice
  split <;> rfl

/-- `closeGated` keeps the trigger flag. -/
lemma useTrigger_closeGated (s : DevState) :
    (closeGated s).useTrigger = s.useTrigger := by
  unfold closeGated closeDevice
  split <;> rfl

/-- On an all-idle device the gated close really closes. -/
lemma closeGated_of_allIdle (s : DevState) (h : allIdle s) :
    closeGated s = closeDevice s := by
  unfold closeGated
  exact if_pos h

/-- Idleness transfers along equal client lists. -/
lemma allIdle_of_eq (s t : DevState) (hIdle : allIdle s)
    (ht : t.aioModes = s.aioModes) : allIdle t := by
  unfold allIdle at hIdle ⊢
  rw [ht]
  exact hIdle

/-- Gated-closing any state with the same (all idle) client list yields
`MODE_NONE`. -/
lemma closeGated_mode_idle (s t : DevState) (hIdle : allIdle s)
    (ht : t.aioModes = s.aioModes) :
    (closeGated t).currentMode = Mode.none := by
  rw [closeGated_of_allIdle t (allIdle_of_eq s t hIdle ht)]
  rfl

/-- A failing `cfgFinish` on an all-idle device ends with
`current_mode = MODE_NONE`. -/
lemma cfgFinish_fail_idle (s : DevState) (b : Backend) (m : Mode)
    (cs : List Cmd) (hIdle : allIdle s)
    (hFail : (cfgFinish s b m cs).ok = false) :
    (cfgFinish s b m cs).state.currentMode = Mode.none := by
  simp only [cfgFinish] at hFail ⊢
  split_ifs at hFail ⊢ <;>
    first
      | exact closeGated_mode_idle s _ hIdle rfl
      | exact absurd hFail (by simp)

/-- A failing `cfgParams` on an all-idle device ends with
`current_mode = MODE_NONE`. -/
lemma cfgParams_fail_idle (chCount rate : Int) (s : DevState) (b : Backend)
    (m : Mode) (cs : List Cmd) (hIdle : allIdle s)
    (hFail : (cfgParams chCount rate s b m cs).ok = false) :
    (cfgParams chCount rate s b m cs).state.currentMode = Mode.none := by
  simp only [cfgParams] at hFail ⊢
  split_ifs at hFail ⊢ <;>
    first
      | exact closeGated_mode_idle s _ hIdle rfl
      | exact cfgFinish_fail_idle s b m _ hIdle hFail

/-- A failing configuration sequence on an all-idle device ends with
`current_mode = MODE_NONE`. -/
lemma openConfigure_fail_idle (chCount rate : Int) (s : DevState)
    (b : Backend) (m : Mode) (hIdle : allIdle s)
    (hFail : (openConfigure chCount rate s b m).ok = false) :
    (openConfigure chCount rate s b m).state.currentMode = Mode.none := by
  simp only [openConfigure] at hFail ⊢
  split_ifs at hFail ⊢ <;>
    first
      | exact closeGated_mode_idle s _ hIdle rfl
      | exact cfgParams_fail_idle chCount rate _ b m _
          (allIdle_of_eq s _ hIdle rfl) hFail

/-- Claim C4, amended: the code assigns `current_mode = mode` after the
sample-rate validation but before trigger arming and the fragment-size
query.  Whenever all registered clients are idle (so the error-path
`close()` is not gated off), a failing `open` still ends with
`current_mode = MODE_NONE`, never the newly requested mode; with a
non-idle client, a failure in one of the two late steps leaves the new
mode visible (see `c4_counterexample_mode_left_on_late_failure`). -/
theorem c4_open_failure_resets_mode_when_idle (chCount rate : Int)
    (s : DevState) (b : Backend) (m : Mode)
    (hInv : s.currentMode ≠ Mode.none → s.fdOpen = true)
    (hIdle : allIdle s)
    (hFail : (openDev chCount rate s b m).ok = false) :
    (openDev chCount rate s b m).state.currentMode = Mode.none ∧
    m ≠ Mode.none := by
  unfold openDev at hFail ⊢
  by_cases h1 : m = s.currentMode
  · simp [h1] at hFail
  · rw [if_neg h1] at hFail ⊢
    by_cases h2 : m = Mode.none
    · -- `MODE_NONE` with all clients idle: the gated close succeeds and
      -- the call returns true, contradicting hFail.
      exfalso
      subst h2
      rw [if_pos rfl, closeGated_of_allIdle s hIdle] at hFail
      simp [closeDevice] at hFail
    · rw [if_neg h2] at hFail ⊢
      refine ⟨?_, h2⟩
      by_cases h3 : s.currentMode = Mode.rdwr
      · simp [h3] at hFail
      · rw [if_neg h3] at hFail ⊢
        have hs2 : (if s.fdOpen then closeDevice s else s).currentMode
            = Mode.none := by
          by_cases h4 : s.fdOpen
          · simp [h4, closeDevice]
          · have h5 : s.currentMode = Mode.none := by
              by_contra hne
              exact h4 (hInv hne)
            simp [h4, h5]
        have hs2aio : (if s.fdOpen then closeDevice s else s).aioModes
            = s.aioModes := by
          by_cases h4 : s.fdOpen <;> simp [h4, closeDevice]
        simp only [] at hFail ⊢
        by_cases hc : s.currentMode ≠ Mode.none ∧ m ≠ s.currentMode
        · rw [if_pos hc] at hFail ⊢
          simp only [] at hFail ⊢
          by_cases h5 : b.openOk = false
          · rw [if_pos h5] at hFail ⊢
            exact hs2
          · rw [if_neg h5] at hFail ⊢
            exact openConfigure_fail_idle chCount rate _ b _
              (allIdle_of_eq s _ hIdle hs2aio) hFail
        · rw [if_neg hc] at hFail ⊢
          cases m with
          | none => exact absurd rfl h2
          | rd =>
            simp only [] at hFail ⊢
            by_cases h5 : b.openOk = false
            · rw [if_pos h5] at hFail ⊢
              exact hs2
            · rw [if_neg h5] at hFail ⊢
              exact openConfigure_fail_idle chCount rate _ b _
                (allIdle_of_eq s _ hIdle hs2aio) hFail
          | wr =>
            simp only [] at hFail ⊢
            by_cases h5 : b.openOk = false
            · rw [if_pos h5] at hFail ⊢
              exact hs2
            · rw [if_neg h5] at hFail ⊢
              exact openConfigure_fail_idle chCount rate _ b _
                (allIdle_of_eq s _ hIdle hs2aio) hFail
          | rdwr =>
            simp only [] at hFail ⊢
            by_cases h5 : b.openOk = false
            · rw [if_pos h5] at hFail ⊢
              exact hs2
            · rw [if_neg h5] at hFail ⊢
              exact openConfigure_fail_idle chCount rate _ b _
                (allIdle_of_eq s _ hIdle hs2aio) hFail

/-- Witness for the amended C4 theorem: a concrete all-idle device whose
`SETFMT` step fails. -/
theorem c4_open_failure_resets_mode_when_idle_witness :
    (openDev 1 8000
      ⟨Mode.none, false, false, 0, [Mode.none], false, false, false⟩
      ⟨true, true, 0, true, true, false, 16, true, 1, true, 8000, true, true⟩
      Mode.wr).state.currentMode = Mode.none ∧
    Mode.wr ≠ Mode.none :=
  c4_open_failure_resets_mode_when_idle 1 8000
    ⟨Mode.none, false, false, 0, [Mode.none], false, false, false⟩
    ⟨true, true, 0, true, true, false, 16, true, 1, true, 8000, true, true⟩
    Mode.wr (by decide) (by decide) (by decide)

/-- With `use_trigger` false, `cfgFinish` adds no trigger command. -/
lemma cfgFinish_no_trigger (s : DevState) (b : Backend) (m : Mode)
    (cs : List Cmd) (hut : s.useTrigger = false) (mask : Int)
    (hcs : Cmd.setTrigger mask ∉ cs) :
    Cmd.setTrigger mask ∉ (cfgFinish s b m cs).cmds := by
  simp only [cfgFinish]
  split_ifs <;> simp_all [hcs]

/-- With `use_trigger` false, `cfgParams` adds no trigger command. -/
lemma cfgParams_no_trigger (chCount rate : Int) (s : DevState) (b : Backend)
    (m : Mode) (cs : List Cmd) (hut : s.useTrigger = false) (mask : Int)
    (hcs : Cmd.setTrigger mask ∉ cs) :
    Cmd.setTrigger mask ∉ (cfgParams chCount rate s b m cs).cmds := by
  simp only [cfgParams]
  split_ifs <;>
    first
      | exact cfgFinish_no_trigger s b m _ hut mask (by simp [hcs])
      | simp_all [hcs]

/-- With `use_trigger` false, the configuration sequence issues no trigger
command. -/
lemma openConfigure_no_trigger (chCount rate : Int) (s : DevState)
    (b : Backend) (m : Mode) (hut : s.useTrigger = false) (mask : Int) :
    Cmd.setTrigger mask ∉ (openConfigure chCount rate s b m).cmds := by
  simp only [openConfigure]
  split_ifs <;>
    solve
      | simp_all [hut]
      | (simp_all [hut]
         exact cfgParams_no_trigger chCount rate _ b _ _ rfl mask (by simp))

/-- Claim C10: the explicit stream-enable (trigger) mechanism is used only
when `ASYNC_AUDIO_NOTRIGGER` is set and its value parses to the integer 0.
For a device constructed while the variable is unset, or set to a non-zero
value, `use_trigger` is false and no `SNDCTL_DSP_SETTRIGGER` command is
ever issued by `open` (no other member issues one), so the device behaves
as if both directions stay enabled once opened. -/
theorem c10_no_trigger_when_env_unset_or_nonzero (envSet : Bool) (v : Int)
    (chCount rate : Int) (s : DevState) (b : Backend) (m : Mode)
    (henv : ¬ (envSet = true ∧ v = 0))
    (hs : s.useTrigger = useTriggerOfEnv envSet v) (mask : Int) :
    Cmd.setTrigger mask ∉ (openDev chCount rate s b m).cmds := by
  have hut : s.useTrigger = false := by
    rw [hs]
    unfold useTriggerOfEnv
    cases envSet with
    | false => simp
    | true =>
      have hv : ¬ v = 0 := fun h => henv ⟨rfl, h⟩
      simp [hv]
  unfold openDev
  by_cases h1 : m = s.currentMode
  · simp [h1]
  · rw [if_neg h1]
    have hut1 : (if m = Mode.none then closeGated s else s).useTrigger
        = false := by
      by_cases h2 : m = Mode.none
      · simp [h2, useTrigger_closeGated, hut]
      · simp [h2, hut]
    set s1 := if m = Mode.none then closeGated s else s with hs1
    by_cases h3 : s1.currentMode = Mode.rdwr
    · simp [h3]
    · rw [if_neg h3]
      simp only []
      have hut2 : (if s1.fdOpen then closeDevice s1 else s1).useTrigger
          = false := by
        by_cases h4 : s1.fdOpen <;> simp [h4, closeDevice, hut1]
      by_cases hc : s1.currentMode ≠ Mode.none ∧ m ≠ s1.currentMode
      · rw [if_pos hc]
        simp only []
        by_cases h5 : b.openOk = false
        · rw [if_pos h5]; simp
        · rw [if_neg h5]
          refine openConfigure_no_trigger chCount rate _ b _ ?_ mask
          exact hut2
      · rw [if_neg hc]
        cases m with
        | none =>
          simp
        | rd =>
          simp only []
          by_cases h5 : b.openOk = false
          · rw [if_pos h5]; simp
          · rw [if_neg h5]
            refine openConfigure_no_trigger chCount rate _ b _ ?_ mask
            exact hut2
        | wr =>
          simp only []
          by_cases h5 : b.openOk = false
          · rw [if_pos h5]; simp
          · rw [if_neg h5]
            refine openConfigure_no_trigger chCount rate _ b _ ?_ mask
            exact hut2
        | rdwr =>
          simp only []
          by_cases h5 : b.openOk = false
          · rw [if_pos h5]; simp
          · rw [if_neg h5]
            refine openConfigure_no_trigger chCount rate _ b _ ?_ mask
            exact hut2

/-- Witness for C10: the variable set to the non-zero value 1; the disarm
mask command does not appear in a full successful open. -/
theorem c10_no_trigger_when_env_unset_or_nonzero_witness :
    Cmd.setTrigger (-4) ∉ (openDev 1 8000
      ⟨Mode.none, false, false, 4096, [Mode.none], false, false, false⟩
      ⟨true, true, 4096, true, true, true, 16, true, 1, true, 8000, true, true⟩
      Mode.wr).cmds :=
  c10_no_trigger_when_env_unset_or_nonzero true 1 1 8000
    ⟨Mode.none, false, false, 4096, [Mode.none], false, false, false⟩
    ⟨true, true, 4096, true, true, true, 16, true, 1, true, 8000, true, true⟩
    Mode.wr (by decide) (by decide) (-4)

/-- With the two late backend steps succeeding, `cfgFinish` succeeds and
sets the new mode. -/
lemma cfgFinish_ok (s : DevState) (b : Backend) (m : Mode) (cs : List Cmd)
    (h1 : b.trigEnableOk = true) (h2 : b.getBlkSizeOk = true) :
    (cfgFinish s b m cs).ok = true ∧
    (cfgFinish s b m cs).state.currentMode = m := by
  simp [cfgFinish, h1, h2]

/-- With an all-accepting backend, `cfgParams` succeeds and sets the new
mode. -/
lemma cfgParams_ok (chCount rate : Int) (s : DevState) (b : Backend)
    (m : Mode) (cs : List Cmd) (hok : backendAllOk chCount rate b) :
    (cfgParams chCount rate s b m cs).ok = true ∧
    (cfgParams chCount rate s b m cs).state.currentMode = m := by
  obtain ⟨h1, h2, h3, h4, h5, h6, h7, h8, h9, h10, h11, h12⟩ := hok
  have h10' : ¬ (100 < (b.speedRet - rate).natAbs) := Nat.not_lt.mpr h10
  simp only [cfgParams, h4, h5, h6, h7, h8, h9, h10']
  simp only [AFMT_S16_NE] at h6 ⊢
  norm_num
  exact cfgFinish_ok s b m _ h11 h12

/-- With an all-accepting backend, the whole configuration sequence
succeeds and sets the new mode. -/
lemma openConfigure_ok (chCount rate : Int) (s : DevState) (b : Backend)
    (m : Mode) (hok : backendAllOk chCount rate b) :
    (openConfigure chCount rate s b m).ok = true ∧
    (openConfigure chCount rate s b m).state.currentMode = m := by
  obtain ⟨h1, h2, h3, h4, h5, h6, h7, h8, h9, h10, h11, h12⟩ := hok
  simp only [openConfigure, h2, h3]
  norm_num
  exact cfgParams_ok chCount rate _ b m _
    ⟨h1, h2, h3, h4, h5, h6, h7, h8, h9, h10, h11, h12⟩

/-- Claim C6: a device open in one single direction, asked for the other
single direction, resolves the target mode to `MODE_RDWR` (the escalation
of lines 196-200).  Together with the caller-side duplex gate (modelled
from the spec in `clientOpen`): when the backend reports duplex capability
the open succeeds and the mode becomes `MODE_RDWR`; otherwise the second
open fails cleanly, leaving the device state untouched. -/
theorem c6_opposite_direction_escalates_to_duplex (chCount rate : Int)
    (s : DevState) (b : Backend) (m : Mode)
    (hdir : (s.currentMode = Mode.rd ∧ m = Mode.wr) ∨
            (s.currentMode = Mode.wr ∧ m = Mode.rd))
    (hok : backendAllOk chCount rate b) :
    (isFullDuplexCapable s = true →
      (clientOpen chCount rate s b m).2 = true ∧
      (clientOpen chCount rate s b m).1.currentMode = Mode.rdwr) ∧
    (isFullDuplexCapable s = false →
      (clientOpen chCount rate s b m).2 = false ∧
      (clientOpen chCount rate s b m).1 = s) := by
  have hopenOk : b.openOk = true := hok.1
  have hcore : (openDev chCount rate s b m).ok = true ∧
      (openDev chCount rate s b m).state.currentMode = Mode.rdwr := by
    rcases hdir with ⟨hcur, hm⟩ | ⟨hcur, hm⟩ <;>
      (subst hm
       unfold openDev
       simp [hcur, hopenOk]
       exact openConfigure_ok chCount rate _ b Mode.rdwr hok)
  have hesc : s.currentMode ≠ Mode.none ∧ m ≠ Mode.none ∧
      m ≠ s.currentMode ∧ s.currentMode ≠ Mode.rdwr := by
    rcases hdir with ⟨hcur, hm⟩ | ⟨hcur, hm⟩ <;>
      (subst hm; rw [hcur]; refine ⟨?_, ?_, ?_, ?_⟩ <;> decide)
  constructor
  · intro hcap
    unfold clientOpen
    rw [if_neg (fun hcond => hcond.2 hcap)]
    exact hcore
  · intro hcap
    unfold clientOpen
    rw [if_pos ⟨hesc, fun hdup => by rw [hcap] at hdup; cases hdup⟩]
    exact ⟨rfl, rfl⟩

/-- Witness for C6: a duplex-capable device (caps bit 8 set) open for
reading, asked for writing by a second client. -/
theorem c6_opposite_direction_escalates_to_duplex_witness :
    ((isFullDuplexCapable
        ⟨Mode.rd, true, false, 256, [Mode.rd, Mode.none], true, false, true⟩
          = true →
      (clientOpen 1 8000
        ⟨Mode.rd, true, false, 256, [Mode.rd, Mode.none], true, false, true⟩
        ⟨true, true, 256, true, true, true, 16, true, 1, true, 8000, true,
         true⟩ Mode.wr).2 = true ∧
      (clientOpen 1 8000
        ⟨Mode.rd, true, false, 256, [Mode.rd, Mode.none], true, false, true⟩
        ⟨true, true, 256, true, true, true, 16, true, 1, true, 8000, true,
         true⟩ Mode.wr).1.currentMode = Mode.rdwr) ∧
    (isFullDuplexCapable
        ⟨Mode.rd, true, false, 256, [Mode.rd, Mode.none], true, false, true⟩
          = false →
      (clientOpen 1 8000
        ⟨Mode.rd, true, false, 256, [Mode.rd, Mode.none], true, false, true⟩
        ⟨true, true, 256, true, true, true, 16, true, 1, true, 8000, true,
         true⟩ Mode.wr).2 = false ∧
      (clientOpen 1 8000
        ⟨Mode.rd, true, false, 256, [Mode.rd, Mode.none], true, false, true⟩
        ⟨true, true, 256, true, true, true, 16, true, 1, true, 8000, true,
         true⟩ Mode.wr).1 =
        ⟨Mode.rd, true, false, 256, [Mode.rd, Mode.none], true, false, true⟩)) :=
  c6_opposite_direction_escalates_to_duplex 1 8000
    ⟨Mode.rd, true, false, 256, [Mode.rd, Mode.none], true, false, true⟩
    ⟨true, true, 256, true, true, true, 16, true, 1, true, 8000, true, true⟩
    Mode.wr (Or.inl ⟨rfl, rfl⟩) (by decide)

/-- Registering a client preserves the registry invariant. -/
lemma registryInv_register (reg : Registry) (dev : String) (c : Nat)
    (hInv : registryInv reg) : registryInv (registerAio reg dev c) := by
  unfold registerAio
  split_ifs with h
  · intro e he
    unfold updateKey at he
    rw [List.mem_map] at he
    obtain ⟨p, hp, hpe⟩ := he
    by_cases hk : p.1 = dev
    · rw [if_pos hk] at hpe
      obtain ⟨h1, h2⟩ := hInv p hp
      subst hpe
      constructor
      · simp [h1]
      · simp
    · rw [if_neg hk] at hpe
      subst hpe
      exact hInv p hp
  · intro e he
    rw [List.mem_append] at he
    rcases he with he | he
    · exact hInv e he
    · rw [List.mem_singleton] at he
      subst he
      exact ⟨rfl, Nat.zero_lt_one⟩

/-- Unregistering a client preserves the registry invariant. -/
lemma registryInv_unregister (reg : Registry) (c : Nat)
    (hInv : registryInv reg) : registryInv (unregisterAio reg c) := by
  unfold unregisterAio
  intro e he
  rw [List.mem_filterMap] at he
  obtain ⟨p, hp, hpe⟩ := he
  by_cases hc : c ∈ p.2.clients
  · rw [if_pos hc] at hpe
    by_cases hz : p.2.useCount - 1 = 0
    · rw [if_pos hz] at hpe
      cases hpe
    · rw [if_neg hz] at hpe
      obtain ⟨h1, h2⟩ := hInv p hp
      injection hpe with hpe
      subst hpe
      constructor
      · simp [h1, List.length_erase_of_mem hc]
      · exact Nat.pos_of_ne_zero hz
  · rw [if_neg hc] at hpe
    injection hpe with hpe
    subst hpe
    exact hInv p hp

/-- The invariant holds after any sequence of calls applied to an
invariant-satisfying registry. -/
lemma registryInv_foldl (ops : List RegOp) :
    ∀ reg : Registry, registryInv reg → registryInv (ops.foldl applyOp reg) := by
  induction ops with
  | nil => intro reg h; exact h
  | cons op rest ih =>
    intro reg h
    rw [List.foldl_cons]
    refine ih (applyOp reg op) ?_
    cases op with
    | register dev c => exact registryInv_register reg dev c h
    | unregister c => exact registryInv_unregister reg c h

/-- Claim C8: for every sequence of register/unregister calls on the
registry (each unregister naming a currently registered client, each
register a fresh client object), every device present in the registry has
`use_count` equal to the number of its currently registered clients and a
positive `use_count` — i.e. a device object exists if and only if its use
count is positive. -/
theorem c8_use_count_matches_clients (ops : List RegOp)
    (hv : validSeq [] ops = true) :
    ∀ e ∈ runOps ops, e.2.useCount = e.2.clients.length ∧
      0 < e.2.useCount := by
  unfold runOps
  refine registryInv_foldl ops [] ?_
  intro e he
  cases he

/-- Witness for C8: two clients registered on one device, one unregistered
again. -/
theorem c8_use_count_matches_clients_witness :
    ("dsp", (⟨1, [2]⟩ : DevEntry)).2.useCount
        = ("dsp", (⟨1, [2]⟩ : DevEntry)).2.clients.length ∧
    0 < ("dsp", (⟨1, [2]⟩ : DevEntry)).2.useCount :=
  c8_use_count_matches_clients
    [RegOp.register "dsp" 1, RegOp.register "dsp" 2, RegOp.unregister 1]
    (by decide) ("dsp", ⟨1, [2]⟩) (by decide)

/-- The scan cap never exceeds its starting value. -/
lemma scanCap_le_init (aios : List Aio) :
    ∀ ftw, scanCap ftw aios ≤ ftw := by
  induction aios with
  | nil => intro ftw; exact Nat.le_refl ftw
  | cons a t ih =>
    intro ftw
    simp only [scanCap]
    split_ifs with h
    · exact Nat.le_trans (ih _) (Nat.le_of_lt h.2.2)
    · exact ih ftw

/-- The scan cap is bounded by every non-idle, non-flushing client's
available sample count. -/
lemma scanCap_le_avail (aios : List Aio) :
    ∀ ftw, ∀ a ∈ aios, a.idle = false → a.flush = false →
      scanCap ftw aios ≤ a.queue.length := by
  induction aios with
  | nil =>
    intro ftw a ha
    cases ha
  | cons x t ih =>
    intro ftw a ha hidle hflush
    rw [List.mem_cons] at ha
    rcases ha with ha | ha
    · subst ha
      simp only [scanCap]
      split_ifs with h
      · exact scanCap_le_init t _
      · have hge : ftw ≤ a.queue.length := by
          rcases Nat.lt_or_ge a.queue.length ftw with hlt | hge
          · exact absurd ⟨hidle, hflush, hlt⟩ h
          · exact hge
        exact Nat.le_trans (scanCap_le_init t ftw) hge
    · simp only [scanCap]
      exact ih _ a ha hidle hflush

/-- A non-idle, non-flushing client falsifies `do_flush`. -/
lemma doFlushScan_false (aios : List Aio) (a : Aio) (ha : a ∈ aios)
    (hidle : a.idle = false) (hflush : a.flush = false) :
    ¬ doFlushScan aios := by
  intro h
  have := h a ha hidle
  rw [hflush] at this
  cases this

/-- If no non-idle client has queued samples, the max scan returns its
accumulator. -/
lemma maxAcc_of_empty (aios : List Aio)
    (h : ∀ a ∈ aios, a.idle = false → a.queue.length = 0) :
    ∀ acc, maxAcc acc aios = acc := by
  induction aios with
  | nil => intro acc; rfl
  | cons x t ih =>
    intro acc
    simp only [maxAcc]
    have hx : ¬ (x.idle = false ∧ acc < x.queue.length) := by
      rintro ⟨h1, h2⟩
      rw [h x (List.mem_cons_self x t) h1] at h2
      cases Nat.not_lt_zero acc h2
    rw [if_neg hx]
    exact ih (fun a ha => h a (List.mem_cons_of_mem x ha)) acc

/-- The rounded-down frame count is bounded by the input. -/
lemma ftwAligned_le (ftw : Nat) (fl : Bool) (fragsize : Nat) :
    ftwAligned ftw fl fragsize ≤ ftw := by
  unfold ftwAligned
  split
  · exact Nat.le_refl ftw
  · exact Nat.div_mul_le_self ftw fragsize

/-- The `frames_to_write` reaching the mixing loop is bounded by every
non-idle, non-flushing client's available sample count. -/
lemma resolvedFtw_le_avail (fragments fragsize : Nat) (aios : List Aio)
    (a : Aio) (ha : a ∈ aios) (hidle : a.idle = false)
    (hflush : a.flush = false) :
    resolvedFtw fragments fragsize aios ≤ a.queue.length := by
  unfold resolvedFtw
  refine Nat.le_trans (ftwAligned_le _ _ _) ?_
  unfold ftwScan
  simp only []
  split_ifs with h
  · exact Nat.le_trans (Nat.le_of_lt h) (scanCap_le_avail aios _ a ha hidle hflush)
  · exact scanCap_le_avail aios _ a ha hidle hflush

/-- With a non-idle, non-flushing client present, the scan reports
`do_flush = false`. -/
lemma ftwScan_flush_false (ftw0 : Nat) (aios : List Aio) (a : Aio)
    (ha : a ∈ aios) (hidle : a.idle = false) (hflush : a.flush = false) :
    (ftwScan ftw0 aios).2 = false := by
  unfold ftwScan
  simp only []
  rw [decide_eq_false (doFlushScan_false aios a ha hidle hflush)]
  rw [Bool.false_and]

/-- Draining preserves the client count. -/
lemma drainAios_length (ftw : Nat) (aios : List Aio) :
    (drainAios ftw aios).length = aios.length := by
  unfold drainAios
  exact List.length_map aios _

/-- A drained non-idle client keeps its flags and loses exactly the pulled
samples. -/
lemma drainAios_get (ftw : Nat) (aios : List Aio) (i : Nat)
    (hi : i < aios.length) (hidle : (aios.get ⟨i, hi⟩).idle = false) :
    (drainAios ftw aios).get ⟨i, by rw [drainAios_length]; exact hi⟩ =
      { aios.get ⟨i, hi⟩ with
        queue := (aios.get ⟨i, hi⟩).queue.drop ftw } := by
  unfold drainAios
  rw [List.get_map]
  rw [if_neg (by rw [hidle]; exact Bool.false_ne_true)]

/-- The equation of a writing iteration of the do/while body. -/
lemma wsaStep_wrote (channels fragsize fragments : Nat) (aios : List Aio)
    (h0 : ftwInitial fragments fragsize ≠ 0)
    (h3 : resolvedFtw fragments fragsize aios ≠ 0) :
    wsaStep channels fragsize fragments aios =
      StepOut.wrote
        (if (ftwScan (ftwInitial fragments fragsize) aios).2
         then roundUpFrag (resolvedFtw fragments fragsize aios) fragsize
         else resolvedFtw fragments fragsize aios)
        (mixAios channels (resolvedFtw fragments fragsize aios) aios
          (fun _ => 0))
        (drainAios (resolvedFtw fragments fragsize aios) aios)
        (decide ((if (ftwScan (ftwInitial fragments fragsize) aios).2
                  then roundUpFrag (resolvedFtw fragments fragsize aios)
                         fragsize
                  else resolvedFtw fragments fragsize aios)
                 = fragments * fragsize)) := by
  unfold wsaStep
  rw [if_neg h0, if_neg h3]

/-- The total frame count of a handler invocation, accumulator form: with a
non-idle, non-flushing client at position `i`, the frames written by the
rest of the loop are bounded by that client's available samples. -/
lemma wsaLoop_le (channels fragsize : Nat) (trace : List Nat) :
    ∀ (aios : List Aio) (acc : List (Nat × List ℤ)) (i : Nat)
      (hi : i < aios.length),
      (aios.get ⟨i, hi⟩).idle = false →
      (aios.get ⟨i, hi⟩).flush = false →
      totalFrames (wsaLoop channels fragsize trace aios acc) ≤
        ((acc.map Prod.fst).sum + (aios.get ⟨i, hi⟩).queue.length) := by
  induction trace with
  | nil =>
    intro aios acc i hi hidle hflush
    simp only [wsaLoop, totalFrames, List.map_reverse, List.sum_reverse]
    exact Nat.le_add_right _ _
  | cons fragments rest ih =>
    intro aios acc i hi hidle hflush
    have hmem : aios.get ⟨i, hi⟩ ∈ aios := List.get_mem aios i hi
    by_cases h0 : ftwInitial fragments fragsize = 0
    · simp only [wsaLoop, wsaStep, if_pos h0, totalFrames,
        List.map_reverse, List.sum_reverse]
      exact Nat.le_add_right _ _
    · by_cases h3 : resolvedFtw fragments fragsize aios = 0
      · simp only [wsaLoop, wsaStep, if_neg h0, if_pos h3, totalFrames,
          List.map_reverse, List.sum_reverse]
        exact Nat.le_add_right _ _
      · rw [wsaLoop, wsaStep_wrote channels fragsize fragments aios h0 h3]
        rw [ftwScan_flush_false _ aios _ hmem hidle hflush]
        simp only [if_false, Bool.false_eq_true]
        have hle : resolvedFtw fragments fragsize aios ≤
            (aios.get ⟨i, hi⟩).queue.length :=
          resolvedFtw_le_avail fragments fragsize aios _ hmem hidle hflush
        have hi2 : i < (drainAios (resolvedFtw fragments fragsize aios)
            aios).length := by
          rw [drainAios_length]
          exact hi
        have hget := drainAios_get (resolvedFtw fragments fragsize aios)
          aios i hi hidle
        have hidle2 : ((drainAios (resolvedFtw fragments fragsize aios)
            aios).get ⟨i, hi2⟩).idle = false := by
          rw [hget]
          exact hidle
        have hflush2 : ((drainAios (resolvedFtw fragments fragsize aios)
            aios).get ⟨i, hi2⟩).flush = false := by
          rw [hget]
          exact hflush
        have hlen2 : ((drainAios (resolvedFtw fragments fragsize aios)
            aios).get ⟨i, hi2⟩).queue.length =
            (aios.get ⟨i, hi⟩).queue.length -
              resolvedFtw fragments fragsize aios := by
          rw [hget]
          simp [List.length_drop]
        split_ifs with hcont
        · have hrec := ih (drainAios (resolvedFtw fragments fragsize aios)
            aios)
            ((resolvedFtw fragments fragsize aios,
              extractBuf (resolvedFtw fragments fragsize aios * channels)
                (mixAios channels (resolvedFtw fragments fragsize aios)
                  aios (fun _ => 0))) :: acc)
            i hi2 hidle2 hflush2
          refine Nat.le_trans hrec ?_
          rw [hlen2]
          simp only [List.map_cons, List.sum_cons]
          have harith : resolvedFtw fragments fragsize aios +
              ((aios.get ⟨i, hi⟩).queue.length -
                resolvedFtw fragments fragsize aios) =
              (aios.get ⟨i, hi⟩).queue.length :=
            Nat.add_sub_cancel' hle
          omega
        · simp only [totalFrames, List.map_reverse, List.sum_reverse,
            List.map_cons, List.sum_cons]
          omega

/-- Claim C1: in one invocation of the write/mixing handler, a non-idle
producer that is not requesting flush caps the total number of frames
written at its own available frame count (so the total is at most the
minimum over all such producers); never read past what a producer has, and
never force it to emit silence. -/
theorem c1_nonflushing_producer_caps_frames (channels fragsize : Nat)
    (trace : List Nat) (aios : List Aio) (i : Nat) (hi : i < aios.length)
    (hidle : (aios.get ⟨i, hi⟩).idle = false)
    (hflush : (aios.get ⟨i, hi⟩).flush = false) :
    totalFrames (writeSpaceAvailable channels fragsize trace aios) ≤
      (aios.get ⟨i, hi⟩).queue.length := by
  have h := wsaLoop_le channels fragsize trace aios [] i hi hidle hflush
  simpa [writeSpaceAvailable] using h

/-- Witness for C1, the spec's fairness instance: producer A with 10
queued frames and producer B with 100, neither flushing, 50 frames of
device space free (10 fragments of 5 frames): at most 10 frames are
written in the pass. -/
theorem c1_nonflushing_producer_caps_frames_witness :
    totalFrames (writeSpaceAvailable 1 5 [10]
      [⟨false, false, List.replicate 10 0, 0⟩,
       ⟨false, false, List.replicate 100 0, 0⟩]) ≤ 10 := by
  have h := c1_nonflushing_producer_caps_frames 1 5 [10]
    [⟨false, false, List.replicate 10 0, 0⟩,
     ⟨false, false, List.replicate 100 0, 0⟩] 0 (by decide) rfl rfl
  simpa using h

/-- Truncation toward zero preserves the symmetric int16 range. -/
lemma truncQ_bounds (x : ℚ) (hlo : -32767 ≤ x) (hhi : x ≤ 32767) :
    -32767 ≤ truncQ x ∧ truncQ x ≤ 32767 := by
  unfold truncQ
  split_ifs with h
  · constructor
    · exact Int.le_floor.mpr (by exact_mod_cast hlo)
    · have h1 : ⌊x⌋ ≤ ⌊((32767 : ℤ) : ℚ)⌋ :=
        Int.floor_le_floor (by exact_mod_cast hhi)
      rw [Int.floor_intCast] at h1
      exact h1
  · constructor
    · have h1 : ⌈((-32767 : ℤ) : ℚ)⌉ ≤ ⌈x⌉ :=
        Int.ceil_le_ceil (by exact_mod_cast hlo)
      rw [Int.ceil_intCast] at h1
      exact h1
    · exact Int.ceil_le.mpr (by exact_mod_cast hhi)

/-- Every sample stored by the saturating accumulate is in
`[-32767, 32767]`, whatever the prior slot content and pulled value. -/
lemma clampAdd_bounds (t : ℚ) (prior : ℤ) :
    -32767 ≤ clampAdd t prior ∧ clampAdd t prior ≤ 32767 := by
  unfold clampAdd
  simp only []
  split_ifs with h1 h2
  · exact ⟨by decide, Int.le_refl _⟩
  · exact ⟨Int.le_refl _, by decide⟩
  · push_neg at h1 h2
    exact truncQ_bounds _ h2 h1

/-- `truncQ` is the identity on integers. -/
lemma truncQ_intCast (n : ℤ) : truncQ (n : ℚ) = n := by
  unfold truncQ
  split_ifs with h
  · exact Int.floor_intCast n
  · exact Int.ceil_intCast n

/-- Mixing one client's block keeps every slot inside `[-32767, 32767]`
whenever the incoming buffer is inside. -/
lemma mixInto_bounds (channels chan : Nat) (ts : List ℚ) :
    ∀ (i : Nat) (buf : Nat → ℤ),
      (∀ q, -32767 ≤ buf q ∧ buf q ≤ 32767) →
      ∀ p, -32767 ≤ mixInto channels chan i ts buf p ∧
           mixInto channels chan i ts buf p ≤ 32767 := by
  induction ts with
  | nil =>
    intro i buf hbuf p
    exact hbuf p
  | cons t ts2 ih =>
    intro i buf hbuf p
    simp only [mixInto]
    refine ih (i + 1) _ ?_ p
    intro q
    by_cases hq : q = i * channels + chan
    · rw [if_pos hq]
      exact clampAdd_bounds t _
    · rw [if_neg hq]
      exact hbuf q

/-- The full mixing pass keeps every slot inside `[-32767, 32767]`. -/
lemma mixAios_bounds (channels ftw : Nat) (aios : List Aio) :
    ∀ (buf : Nat → ℤ),
      (∀ q, -32767 ≤ buf q ∧ buf q ≤ 32767) →
      ∀ p, -32767 ≤ mixAios channels ftw aios buf p ∧
           mixAios channels ftw aios buf p ≤ 32767 := by
  induction aios with
  | nil =>
    intro buf hbuf p
    exact hbuf p
  | cons a t ih =>
    intro buf hbuf p
    simp only [mixAios]
    split_ifs with ha
    · exact ih buf hbuf p
    · exact ih _ (mixInto_bounds channels a.channel _ 0 buf hbuf) p

/-- A full-scale sample accumulated on a silent slot stores exactly
+32767. -/
lemma clampAdd_one_zero : clampAdd 1 0 = 32767 := by
  unfold clampAdd
  simp only []
  have e0 : (32767 * (1:ℚ) + ((0:ℤ):ℚ)) = ((32767:ℤ):ℚ) := by
    push_cast
    ring
  rw [e0, if_neg (by push_cast; norm_num), if_neg (by push_cast; norm_num),
    truncQ_intCast]

/-- A full-scale sample accumulated on a slot already holding +32767
saturates to +32767 (no wraparound). -/
lemma clampAdd_one_full : clampAdd 1 32767 = 32767 := by
  unfold clampAdd
  simp only []
  rw [if_pos (by push_cast; norm_num)]

/-- Claim C2: the mixing loop accumulates additively — slot
`i * channels + channel` receives `32767 * sample + prior` — and stores the
saturated value in `[-32767, 32767]`; in particular two producers each
supplying +1.0 on the same channel and frame yield exactly +32767, not a
wrapped-around negative value. -/
theorem c2_mixing_additive_saturating (channels ftw : Nat)
    (aios : List Aio) (buf : Nat → ℤ)
    (hbuf : ∀ q, -32767 ≤ buf q ∧ buf q ≤ 32767) :
    (∀ p, -32767 ≤ mixAios channels ftw aios buf p ∧
          mixAios channels ftw aios buf p ≤ 32767) ∧
    (∀ (ch c i : Nat) (t : ℚ) (b : Nat → ℤ),
        mixInto ch c i [t] b (i * ch + c) = clampAdd t (b (i * ch + c))) ∧
    mixAios 1 1 [⟨false, false, [1], 0⟩, ⟨false, false, [1], 0⟩]
      (fun _ => 0) 0 = 32767 := by
  refine ⟨mixAios_bounds channels ftw aios buf hbuf, ?_, ?_⟩
  · intro ch c i t b
    simp [mixInto]
  · simp [mixAios, mixInto, clampAdd_one_zero, clampAdd_one_full]

/-- Witness for C2: the two-full-scale-producer scenario, with the
zero-filled scratch buffer discharging the range hypothesis. -/
theorem c2_mixing_additive_saturating_witness :
    (-32767 ≤ mixAios 1 1
        [⟨false, false, [1], 0⟩, ⟨false, false, [1], 0⟩] (fun _ => 0) 0) ∧
    mixAios 1 1 [⟨false, false, [1], 0⟩, ⟨false, false, [1], 0⟩]
      (fun _ => 0) 0 = 32767 := by
  have h := c2_mixing_additive_saturating 1 1
    [⟨false, false, [1], 0⟩, ⟨false, false, [1], 0⟩] (fun _ => 0)
    (fun q => ⟨by simp, by simp⟩)
  exact ⟨(h.1 0).1, h.2.2⟩

/-- With no queued samples on any non-idle client, the resolved
`frames_to_write` is zero. -/
lemma resolvedFtw_zero_of_empty (fragments fragsize : Nat)
    (aios : List Aio)
    (h : ∀ a ∈ aios, a.idle = false → a.queue.length = 0) :
    resolvedFtw fragments fragsize aios = 0 := by
  unfold resolvedFtw ftwScan
  simp only []
  have hmx : maxSamplesInFifo aios = 0 := by
    unfold maxSamplesInFifo
    exact maxAcc_of_empty aios h 0
  rw [hmx]
  rcases Nat.eq_zero_or_pos (scanCap (ftwInitial fragments fragsize) aios)
      with h1 | h1
  · rw [h1]
    unfold ftwAligned
    split_ifs <;> simp
  · rw [if_pos h1]
    unfold ftwAligned
    split_ifs <;> simp

/-- Claim C9: if the device has free output space (a positive fragment
count with a positive fragment size) but no non-idle producer has any
samples available, the handler performs no device write, leaves the
producers untouched, and disarms the output-readiness watch before
returning (the prebuffering/idle state). -/
theorem c9_idle_backpressure_disarms_watch (channels fragsize f : Nat)
    (rest : List Nat) (aios : List Aio) (hf : 0 < f) (hfs : 0 < fragsize)
    (hempty : ∀ a ∈ aios, a.idle = false → a.queue.length = 0) :
    writeSpaceAvailable channels fragsize (f :: rest) aios =
      ⟨[], aios, WatchOut.disabled⟩ := by
  have h0 : ftwInitial f fragsize ≠ 0 := by
    unfold ftwInitial
    have hpos : 0 < f * fragsize := Nat.mul_pos hf hfs
    omega
  have hstep : wsaStep channels fragsize f aios = StepOut.noData := by
    unfold wsaStep
    rw [if_neg h0,
      if_pos (resolvedFtw_zero_of_empty f fragsize aios hempty)]
  unfold writeSpaceAvailable
  simp only [wsaLoop, hstep, List.reverse_nil]

/-- Witness for C9: one non-idle flushing producer with an empty queue,
three free fragments of four frames. -/
theorem c9_idle_backpressure_disarms_watch_witness :
    writeSpaceAvailable 1 4 [3] [⟨false, true, [], 0⟩] =
      ⟨[], [⟨false, true, [], 0⟩], WatchOut.disabled⟩ :=
  c9_idle_backpressure_disarms_watch 1 4 3 [] [⟨false, true, [], 0⟩]
    (by decide) (by decide)
    (fun a ha _ => by
      rw [List.mem_singleton] at ha
      rw [ha]
      rfl)


/-- The inner mixing loop never touches slots at or beyond the end of its
block (`(start + block length) * channels`), provided the target channel
index is in range. -/
lemma mixInto_outside (channels chan : Nat) (hc : chan < channels)
    (ts : List ℚ) :
    ∀ (i : Nat) (buf : Nat → ℤ) (p : Nat),
      (i + ts.length) * channels ≤ p →
      mixInto channels chan i ts buf p = buf p := by
  induction ts with
  | nil =>
    intro i buf p hp
    rfl
  | cons t ts2 ih =>
    intro i buf p hp
    have hfac : i + 1 + ts2.length = i + (t :: ts2).length := by
      simp only [List.length_cons]
      omega
    have hp' : (i + 1 + ts2.length) * channels ≤ p := by
      rw [hfac]
      exact hp
    have hle : (i + 1) * channels ≤ p := by
      refine Nat.le_trans (Nat.mul_le_mul_right channels ?_) hp'
      omega
    have hlt : i * channels + chan < (i + 1) * channels := by
      rw [Nat.succ_mul]
      exact Nat.add_lt_add_left hc _
    have hne : p ≠ i * channels + chan := by
      intro he
      exact absurd (Nat.lt_of_le_of_lt (he ▸ hle) hlt) (Nat.lt_irrefl _)
    simp only [mixInto]
    rw [ih (i + 1) _ p hp']
    rw [if_neg hne]

/-- The mixing pass never touches slots at or beyond
`frames_to_write * channels`: the zero-filled tail of the scratch buffer
stays zero. -/
lemma mixAios_outside (channels ftw : Nat) (aios : List Aio)
    (hch : ∀ a ∈ aios, a.idle = false → a.channel < channels) :
    ∀ (buf : Nat → ℤ) (p : Nat), ftw * channels ≤ p →
      mixAios channels ftw aios buf p = buf p := by
  induction aios with
  | nil =>
    intro buf p hp
    rfl
  | cons a t ih =>
    intro buf p hp
    have hcht : ∀ x ∈ t, x.idle = false → x.channel < channels :=
      fun x hx => hch x (List.mem_cons_of_mem a hx)
    simp only [mixAios]
    split_ifs with ha
    · exact ih hcht buf p hp
    · rw [ih hcht _ p hp]
      refine mixInto_outside channels a.channel
        (hch a (List.mem_cons_self a t) (Bool.not_eq_true a.idle ▸ ha)) _
        0 buf p ?_
      refine Nat.le_trans (Nat.mul_le_mul_right channels ?_) hp
      have hlen : (a.queue.take ftw).length ≤ ftw := by
        simp [List.length_take]
      omega

/-- When the resolved `frames_to_write` is not a whole number of
fragments, the scan must have reported `do_flush = true` (the non-flush
path always rounds down to a fragment multiple). -/
lemma flush_true_of_mod (fragments fragsize : Nat) (aios : List Aio)
    (hmod : resolvedFtw fragments fragsize aios % fragsize ≠ 0) :
    (ftwScan (ftwInitial fragments fragsize) aios).2 = true := by
  by_contra h
  rw [Bool.not_eq_true] at h
  apply hmod
  unfold resolvedFtw ftwAligned
  rw [h]
  rw [if_neg Bool.false_ne_true]
  exact Nat.mul_mod_left _ _

/-- Claim C7: when the scan resolves to flushing and `frames_to_write` is
positive but not an exact multiple of `fragsize` (which forces
`do_flush`, since the non-flush path is fragment-aligned), the frame count
written to the device is rounded up to the next fragment boundary, the
producers are drained only of their real data, and every padding slot of
the written buffer beyond the producers' data is zero (silence), the
scratch buffer being zero-filled before mixing. -/
theorem c7_flush_rounds_up_with_silence_padding
    (channels fragsize fragments : Nat) (aios : List Aio)
    (h0 : ftwInitial fragments fragsize ≠ 0)
    (hall : doFlushScan aios)
    (hpos : resolvedFtw fragments fragsize aios ≠ 0)
    (hmod : resolvedFtw fragments fragsize aios % fragsize ≠ 0)
    (hch : ∀ a ∈ aios, a.idle = false → a.channel < channels) :
    wsaStep channels fragsize fragments aios =
      StepOut.wrote
        ((resolvedFtw fragments fragsize aios / fragsize + 1) * fragsize)
        (mixAios channels (resolvedFtw fragments fragsize aios) aios
          (fun _ => 0))
        (drainAios (resolvedFtw fragments fragsize aios) aios)
        (decide ((resolvedFtw fragments fragsize aios / fragsize + 1)
                   * fragsize = fragments * fragsize)) ∧
    (∀ p, resolvedFtw fragments fragsize aios * channels ≤ p →
       mixAios channels (resolvedFtw fragments fragsize aios) aios
         (fun _ => 0) p = 0) := by
  have hfl := flush_true_of_mod fragments fragsize aios hmod
  constructor
  · rw [wsaStep_wrote channels fragsize fragments aios h0 hpos, hfl]
    simp only [if_true]
    unfold roundUpFrag
    rw [if_pos (Nat.pos_of_ne_zero hmod)]
  · intro p hp
    exact mixAios_outside channels _ aios hch (fun _ => 0) p hp

/-- Witness for C7, the spec's flush-draining instance: one flushing
producer with 3 queued frames, fragment size 8, one free fragment: the
write is rounded up to exactly one 8-frame fragment and the padding slot 5
holds silence. -/
theorem c7_flush_rounds_up_with_silence_padding_witness :
    mixAios 1 (resolvedFtw 1 8 [⟨false, true, [0, 0, 0], 0⟩])
      [⟨false, true, [0, 0, 0], 0⟩] (fun _ => 0) 5 = 0 ∧
    (resolvedFtw 1 8 [⟨false, true, [0, 0, 0], 0⟩] / 8 + 1) * 8 = 8 :=
  ⟨(c7_flush_rounds_up_with_silence_padding 1 8 1
      [⟨false, true, [0, 0, 0], 0⟩] (by decide) (by decide) (by decide)
      (by decide) (by decide)).2 5 (by decide),
   by decide⟩
